import Mathlib

/-!
Shallow embedding of the timezone bot (src/main.py) for verification.

The on-disk store is a JSON document keyed by guild id (stringified int);
each guild entry holds a "timezones" dict (user id, stringified, to timezone
identifier string) and an optional "time_message" pair (channel id, message id).
Python dicts are modelled as association lists preserving insertion order:
assignment updates in place when the key exists and appends otherwise, and
deletion removes the entry.  Ids are modelled as Nat (str of a nonnegative int
is injective, so keying by Nat is faithful).  The pytz database is a black box:
it is modelled as a validity predicate on identifier strings, and the pytz
timezone object returned for a stored identifier is represented by that
identifier itself.  The current instant and timezone arithmetic of
datetime.now().astimezone(tz).replace(tzinfo=None) are modelled by a function
from identifier to an integer encoding of the naive local date-time.
-/

namespace TimezoneBot

/-- Lookup in a Python dict modelled as an association list. -/
def alLookup {β : Type} : List (Nat × β) → Nat → Option β
  | [], _ => none
  | (k', v) :: rest, k => if k' = k then some v else alLookup rest k

/-- Python dict assignment: update in place if the key exists, append otherwise. -/
def alInsert {β : Type} : List (Nat × β) → Nat → β → List (Nat × β)
  | [], k, v => [(k, v)]
  | (k', v') :: rest, k, v =>
    if k' = k then (k, v) :: rest else (k', v') :: alInsert rest k v

/-- Python del: remove the entry for the key, if present. -/
def alErase {β : Type} : List (Nat × β) → Nat → List (Nat × β)
  | [], _ => []
  | (k', v') :: rest, k => if k' = k then rest else (k', v') :: alErase rest k

/-- One guild's value in the store document: its "timezones" dict and the
optional "time_message" (channel id, message id) pair. -/
structure GuildData where
  timezones : List (Nat × String)
  time_message : Option (Nat × Nat)
deriving DecidableEq, Repr

/-- The whole store document: guild id keyed mapping. -/
abbrev Doc := List (Nat × GuildData)

/-- Timezone stored for user u of guild g, as recorded on disk. -/
def userTzLookup (doc : Doc) (g u : Nat) : Option String :=
  match alLookup doc g with
  | none => none
  | some gd => alLookup gd.timezones u

/-- Persisted time message record of guild g, if any. -/
def timeMessageOf (doc : Doc) (g : Nat) : Option (Nat × Nat) :=
  match alLookup doc g with
  | none => none
  | some gd => gd.time_message

/-- Timezone.save_timezone (main.py lines 74-91): under the file lock, read the
document, create the guild entry with an empty "timezones" dict when absent,
assign the timezone string for the user, write the document back. -/
def save_timezone (doc : Doc) (g u : Nat) (tz : String) : Doc :=
  match alLookup doc g with
  | none => alInsert doc g { timezones := alInsert [] u tz, time_message := none }
  | some gd => alInsert doc g { gd with timezones := alInsert gd.timezones u tz }

/-- Deletion performed by the self-healing branches of Timezone.get_timezone
(main.py lines 117 and 132): del data[str(guild_id)]["timezones"][str(user_id)]
on the in-memory document. -/
def eraseUserTz (doc : Doc) (g u : Nat) : Doc :=
  match alLookup doc g with
  | none => doc
  | some gd => alInsert doc g { gd with timezones := alErase gd.timezones u }

/-- Timezone.get_timezone with a user id (main.py lines 123-136): absent guild
or absent user returns None; an empty stored string is falsy in Python, so
if user_timezone: fails and None is returned without consulting pytz; a stored
identifier the database rejects is deleted and persisted (self-healing) and
None is returned.  The pair returned is (document now on disk, result). -/
def get_timezone_user (validTz : String → Bool) (doc : Doc) (g u : Nat) :
    Doc × Option String :=
  match alLookup doc g with
  | none => (doc, none)
  | some gd =>
    match alLookup gd.timezones u with
    | none => (doc, none)
    | some z =>
      if z = "" then (doc, none)
      else if validTz z then (doc, some z)
      else (eraseUserTz doc g u, none)

/-- Loop of Timezone.get_timezone with user_id None (main.py lines 111-121),
with CPython dict-iterator semantics: deleting an entry of the dict being
iterated makes the very next iterator step (including the final exhaustion
step) raise RuntimeError, so after the first invalid identifier is deleted and
the shrunken document is written to disk, the loop raises.  The flag records
that the dict size changed since the iterator was created.  The error value is
the RuntimeError; the document component is what is on disk at that point. -/
def getAllLoop (validTz : String → Bool) (g : Nat) :
    List (Nat × String) → List (Nat × String) → Doc → Bool →
      Doc × Except Unit (List (Nat × String))
  | [], acc, doc, mutated =>
    if mutated then (doc, Except.error ()) else (doc, Except.ok acc)
  | (u, z) :: rest, acc, doc, mutated =>
    if mutated then (doc, Except.error ())
    else if validTz z then getAllLoop validTz g rest (acc ++ [(u, z)]) doc false
    else getAllLoop validTz g rest acc (eraseUserTz doc g u) true

/-- Timezone.get_timezone with user_id None (main.py lines 107-121): an absent
guild yields the empty mapping; otherwise every entry is validated against the
timezone database, accumulating the valid ones, and a stale entry is deleted
and persisted — whereupon the next dict-iterator step raises RuntimeError. -/
def getTimezoneAll (validTz : String → Bool) (doc : Doc) (g : Nat) :
    Doc × Except Unit (List (Nat × String)) :=
  match alLookup doc g with
  | none => (doc, Except.ok [])
  | some gd => getAllLoop validTz g gd.timezones [] doc false

/-- Timezone.remove_timezone (main.py lines 138-151): delete the user's entry
and write the document back only when both the guild and the user entry exist;
otherwise nothing is written. -/
def remove_timezone (doc : Doc) (g u : Nat) : Doc :=
  match alLookup doc g with
  | none => doc
  | some gd =>
    if (alLookup gd.timezones u).isSome then
      alInsert doc g { gd with timezones := alErase gd.timezones u }
    else doc

/-- Store side of Timezone.remove_time_message (main.py lines 211-217): delete
the guild's "time_message" key and write back only when present. -/
def remove_time_message_doc (doc : Doc) (g : Nat) : Doc :=
  match alLookup doc g with
  | none => doc
  | some gd =>
    if gd.time_message.isSome then
      alInsert doc g { gd with time_message := none }
    else doc

/-! Display grouper: Timezone.create_time_message_embed, main.py lines 412-454.
The grouping key is the naive local date-time
time_now.astimezone(tz).replace(tzinfo=None); it is modelled as an Int given
by a parameter localNaive evaluated at the current instant. -/

/-- One dict-update step of the grouping loop (main.py lines 429-434): append
the (user, tz) pair to the group keyed by its naive local time, creating the
group at the end in insertion order when the key is new. -/
def addToGroups : List (Int × List (Nat × String)) → Int → Nat × String →
    List (Int × List (Nat × String))
  | [], k, p => [(k, [p])]
  | (k', l) :: rest, k, p =>
    if k' = k then (k', l ++ [p]) :: rest else (k', l) :: addToGroups rest k p

/-- Loop of main.py lines 429-434, threading the dict being built. -/
def groupUsersAux (localNaive : String → Int) :
    List (Nat × String) → List (Int × List (Nat × String)) →
      List (Int × List (Nat × String))
  | [], gs => gs
  | p :: rest, gs => groupUsersAux localNaive rest (addToGroups gs (localNaive p.2) p)

/-- The users_by_timezones dict (main.py lines 428-434): fold every member into
the group of its naive local date-time. -/
def groupUsers (localNaive : String → Int) (tzs : List (Nat × String)) :
    List (Int × List (Nat × String)) :=
  groupUsersAux localNaive tzs []

/-- Sort key of main.py lines 436-439: ascending by naive local date-time
first, then by number of members in the group. -/
def groupLe (a b : Int × List (Nat × String)) : Prop :=
  a.1 < b.1 ∨ (a.1 = b.1 ∧ a.2.length ≤ b.2.length)

instance : DecidableRel groupLe := fun a b =>
  inferInstanceAs (Decidable (a.1 < b.1 ∨ (a.1 = b.1 ∧ a.2.length ≤ b.2.length)))

instance : IsTotal (Int × List (Nat × String)) groupLe where
  total a b := by
    rcases lt_trichotomy a.1 b.1 with h | h | h
    · exact Or.inl (Or.inl h)
    · rcases Nat.le_total a.2.length b.2.length with h2 | h2
      · exact Or.inl (Or.inr ⟨h, h2⟩)
      · exact Or.inr (Or.inr ⟨h.symm, h2⟩)
    · exact Or.inr (Or.inl h)

instance : IsTrans (Int × List (Nat × String)) groupLe where
  trans a b c hab hbc := by
    rcases hab with h1 | ⟨h1, h1l⟩
    · rcases hbc with h2 | ⟨h2, _⟩
      · exact Or.inl (h1.trans h2)
      · exact Or.inl (h2 ▸ h1)
    · rcases hbc with h2 | ⟨h2, h2l⟩
      · exact Or.inl (h1 ▸ h2)
      · exact Or.inr ⟨h1.trans h2, h1l.trans h2l⟩

/-- users_by_timezones_sorted (main.py lines 436-439): the groups sorted by
(naive local date-time, group size). -/
def displayGroups (localNaive : String → Int) (tzs : List (Nat × String)) :
    List (Int × List (Nat × String)) :=
  List.insertionSort groupLe (groupUsers localNaive tzs)

/-- Shape of the embed body built in main.py lines 425-442: the sentinel text
when no one has set a timezone, else the ordered group listing. -/
inductive TMContent
  | sentinel
  | groups (gs : List (Int × List (Nat × String)))
deriving DecidableEq, Repr

/-- The if not timezones branch of main.py lines 425-442, at the level of the
claims: the sentinel exactly for the empty mapping, else the sorted groups. -/
def timeMessageContent (localNaive : String → Int) (tzs : List (Nat × String)) :
    TMContent :=
  if tzs.isEmpty then TMContent.sentinel
  else TMContent.groups (displayGroups localNaive tzs)

/-- Timezone.create_time_message_embed (main.py lines 412-454): fetch the
guild's mapping (which may mutate the store and raise, lines 420 and 107-121),
then build the content.  The RuntimeError from get_timezone propagates. -/
def create_time_message_content (validTz : String → Bool)
    (localNaive : String → Int) (doc : Doc) (g : Nat) :
    Doc × Except Unit TMContent :=
  match getTimezoneAll validTz doc g with
  | (doc', Except.error e) => (doc', Except.error e)
  | (doc', Except.ok tzs) => (doc', Except.ok (timeMessageContent localNaive tzs))

/-! Command layer: Timezone.timezone_set, main.py lines 249-284. -/

/-- Replies the timezone set command can produce. -/
inductive SetReply
  | noPermission
  | invalidTz
  | success (user : Nat) (zone : String)
deriving DecidableEq, Repr

/-- Result of one invocation of the timezone set command: the document now on
disk and the reply sent. -/
structure SetResult where
  doc : Doc
  reply : SetReply
deriving DecidableEq, Repr

/-- Timezone.timezone_set (main.py lines 249-284): resolve the target user
(author when none given; otherwise a permission check rejects a non-staff
author targeting someone else), casefold and strip the identifier — the Python
builtin str.casefold().strip() is modelled by the external parameter
normalize — then validate it against the timezone database and reply with the
invalid-timezone message touching nothing when it is unknown, else save it via
save_timezone. -/
def timezone_set (validTz : String → Bool) (normalize : String → String)
    (doc : Doc) (g author : Nat) (tzInput : String) (target : Option Nat)
    (authorCanManage : Bool) : SetResult :=
  let user := target.getD author
  if target.isSome ∧ ¬authorCanManage ∧ author ≠ user then
    { doc := doc, reply := SetReply.noPermission }
  else
    let tz := normalize tzInput
    if validTz tz then
      { doc := save_timezone doc g user tz, reply := SetReply.success user tz }
    else { doc := doc, reply := SetReply.invalidTz }

/-! Refresh loop: Timezone.time_message_updater_task, main.py lines 55-72, and
Timezone.remove_time_message, lines 205-218.  The message cache maps a guild
id to the cached message, represented by its message id; guild resolvability
(bot.get_guild) and the channel send permission are parameters of one tick. -/

/-- In-memory cache plus on-disk document, the state one tick acts on. -/
structure TickState where
  cache : List (Nat × Nat)
  doc : Doc
deriving DecidableEq, Repr

/-- Timezone.remove_time_message (main.py lines 205-218): remove the persisted
record under the lock, then pop the cache entry. -/
def remove_time_message (st : TickState) (g : Nat) : TickState :=
  { cache := alErase st.cache g, doc := remove_time_message_doc st.doc g }

/-- Body of the per-guild iteration of time_message_updater_task (main.py
lines 60-72): an unresolvable guild has its cache entry and persisted record
removed; otherwise the cached message is looked up (a missing entry would be a
caught KeyError, leaving everything untouched), the channel send permission is
checked — lacking it nothing happens this tick — and otherwise the embed is
recomputed and the message edited; if the recompute raises (the caught
exception of lines 66-72) no edit happens, but its store writes remain. -/
def tickStep (resolveGuild canSend : Nat → Bool) (validTz : String → Bool)
    (localNaive : String → Int) (g : Nat)
    (acc : TickState × List (Nat × Nat × TMContent)) :
    TickState × List (Nat × Nat × TMContent) :=
  let (st, edits) := acc
  if resolveGuild g = false then (remove_time_message st g, edits)
  else
    match alLookup st.cache g with
    | none => (st, edits)
    | some msg =>
      if canSend g then
        match create_time_message_content validTz localNaive st.doc g with
        | (doc', Except.ok content) =>
          ({ st with doc := doc' }, edits ++ [(g, msg, content)])
        | (doc', Except.error _) => ({ st with doc := doc' }, edits)
      else (st, edits)

/-- One tick of time_message_updater_task (main.py lines 55-72): iterate over a
snapshot of the cache's keys, processing each guild independently.  Returns
the final state and the (guild, message, new content) edits applied. -/
def tick (resolveGuild canSend : Nat → Bool) (validTz : String → Bool)
    (localNaive : String → Int) (st : TickState) :
    TickState × List (Nat × Nat × TMContent) :=
  (st.cache.map Prod.fst).foldl
    (fun acc g => tickStep resolveGuild canSend validTz localNaive g acc)
    (st, [])

/-- Replies of the timemessage clear command. -/
inductive ClearReply
  | noExists
  | cleared
deriving DecidableEq, Repr

/-- Timezone.time_message_clear (main.py lines 509-527): when the guild has no
cache entry, reply that no persistent time message exists and return without
touching the store; otherwise delete the message (best effort) and remove the
record and the cache entry. -/
def time_message_clear (st : TickState) (g : Nat) : TickState × ClearReply :=
  match alLookup st.cache g with
  | none => (st, ClearReply.noExists)
  | some _ => (remove_time_message st g, ClearReply.cleared)

/-! Lock-and-file event traces of the store operations, transcribed from the
async with self.timezone_file_lock blocks and the file reads and writes they
enclose, used to check the critical-section discipline the spec describes. -/

/-- Lock and file events: acquire, release, whole-file read, whole-file write. -/
inductive Ev
  | acq
  | rel
  | readF
  | writeF
deriving DecidableEq, Repr

/-- Trace of save_timezone (main.py lines 82-91): read, mutate and write under
one hold of the lock. -/
def save_timezone_trace : List Ev := [Ev.acq, Ev.readF, Ev.writeF, Ev.rel]

/-- Trace of remove_timezone (main.py lines 145-151): one hold of the lock,
writing only when the entry is present. -/
def remove_timezone_trace (present : Bool) : List Ev :=
  [Ev.acq, Ev.readF] ++ (if present then [Ev.writeF] else []) ++ [Ev.rel]

/-- Trace of save_time_message (main.py lines 194-203): read, mutate and write
under one hold of the lock. -/
def save_time_message_trace : List Ev := [Ev.acq, Ev.readF, Ev.writeF, Ev.rel]

/-- Trace of the store part of remove_time_message (main.py lines 211-217):
one hold of the lock, writing only when the record is present. -/
def remove_time_message_trace (present : Bool) : List Ev :=
  [Ev.acq, Ev.readF] ++ (if present then [Ev.writeF] else []) ++ [Ev.rel]

/-- Trace of get_timezone with a user id (main.py lines 103-136): the read is
done under the lock which is then released (line 105); the self-healing
branch re-acquires the lock for the write (lines 133-135). -/
def get_timezone_user_trace (validTz : String → Bool) (doc : Doc) (g u : Nat) :
    List Ev :=
  [Ev.acq, Ev.readF, Ev.rel] ++
    (match alLookup doc g with
     | none => []
     | some gd =>
       match alLookup gd.timezones u with
       | none => []
       | some z =>
         if z = "" then []
         else if validTz z then []
         else [Ev.acq, Ev.writeF, Ev.rel])

/-- Trace of get_timezone with user_id None (main.py lines 103-121): the read
is done under the lock which is then released; when some entry is stale the
first one is deleted and written under a fresh hold of the lock (lines
118-120) before the iterator raises. -/
def getTimezoneAll_trace (validTz : String → Bool) (doc : Doc) (g : Nat) :
    List Ev :=
  [Ev.acq, Ev.readF, Ev.rel] ++
    (match alLookup doc g with
     | none => []
     | some gd =>
       if gd.timezones.any (fun p => !validTz p.2) then [Ev.acq, Ev.writeF, Ev.rel]
       else [])

/-- Whether the remainder of a trace performs a file write. -/
def containsWrite : List Ev → Bool
  | [] => false
  | Ev.writeF :: _ => true
  | _ :: rest => containsWrite rest

/-- Whether the trace releases the lock and later performs a file write. -/
def relThenWrite : List Ev → Bool
  | [] => false
  | Ev.rel :: rest => containsWrite rest || relThenWrite rest
  | _ :: rest => relThenWrite rest

/-- Whether the trace has a read, then a lock release, then a write: a
read-modify-write whose write lands in a different critical section than the
read it depends on. -/
def readRelWrite : List Ev → Bool
  | [] => false
  | Ev.readF :: rest => relThenWrite rest || readRelWrite rest
  | _ :: rest => readRelWrite rest

/-! Association-list lemmas. -/

theorem alLookup_alInsert_self {β : Type} (l : List (Nat × β)) (k : Nat) (v : β) :
    alLookup (alInsert l k v) k = some v := by
  induction l with
  | nil => simp [alInsert, alLookup]
  | cons hd tl ih =>
    obtain ⟨a, b⟩ := hd
    by_cases h : a = k
    · simp [alInsert, alLookup, h]
    · simp [alInsert, alLookup, h, ih]

theorem alLookup_alInsert_ne {β : Type} (l : List (Nat × β)) (k k' : Nat) (v : β)
    (h : k' ≠ k) : alLookup (alInsert l k v) k' = alLookup l k' := by
  have hkk : ¬(k = k') := fun he => h he.symm
  induction l with
  | nil => simp [alInsert, alLookup, hkk]
  | cons hd tl ih =>
    obtain ⟨a, b⟩ := hd
    by_cases hh : a = k
    · subst hh
      simp [alInsert, alLookup, hkk]
    · by_cases hk' : a = k'
      · simp [alInsert, alLookup, hh, hk', h]
      · simp [alInsert, alLookup, hh, hk', ih]

theorem alInsert_alInsert_same {β : Type} (l : List (Nat × β)) (k : Nat) (v w : β) :
    alInsert (alInsert l k v) k w = alInsert l k w := by
  induction l with
  | nil => simp [alInsert]
  | cons hd tl ih =>
    obtain ⟨a, b⟩ := hd
    by_cases h : a = k
    · simp [alInsert, h]
    · simp [alInsert, h, ih]

theorem alLookup_eq_none_of_not_mem {β : Type} (l : List (Nat × β)) (k : Nat)
    (h : k ∉ l.map Prod.fst) : alLookup l k = none := by
  induction l with
  | nil => simp [alLookup]
  | cons hd tl ih =>
    obtain ⟨a, b⟩ := hd
    simp only [List.map_cons, List.mem_cons] at h
    push_neg at h
    have ha : ¬(a = k) := fun he => h.1 he.symm
    simp [alLookup, ha, ih h.2]

theorem alLookup_alErase_self {β : Type} (l : List (Nat × β)) (k : Nat)
    (h : (l.map Prod.fst).Nodup) : alLookup (alErase l k) k = none := by
  induction l with
  | nil => simp [alErase, alLookup]
  | cons hd tl ih =>
    obtain ⟨a, b⟩ := hd
    simp only [List.map_cons, List.nodup_cons] at h
    by_cases hh : a = k
    · subst hh
      simp only [alErase, if_pos rfl]
      exact alLookup_eq_none_of_not_mem tl a h.1
    · simp [alErase, alLookup, hh, ih h.2]

theorem alLookup_alErase_ne {β : Type} (l : List (Nat × β)) (k k' : Nat)
    (h : k' ≠ k) : alLookup (alErase l k) k' = alLookup l k' := by
  induction l with
  | nil => simp [alErase, alLookup]
  | cons hd tl ih =>
    obtain ⟨a, b⟩ := hd
    by_cases hh : a = k
    · subst hh
      have ha : ¬(a = k') := fun he => h (he.symm)
      simp [alErase, alLookup, ha]
    · by_cases hk' : a = k'
      · simp [alErase, alLookup, hh, hk', h]
      · simp [alErase, alLookup, hh, hk', ih]

theorem alLookup_mem {β : Type} {l : List (Nat × β)} {k : Nat} {v : β}
    (h : alLookup l k = some v) : (k, v) ∈ l := by
  induction l with
  | nil => simp [alLookup] at h
  | cons hd tl ih =>
    obtain ⟨a, b⟩ := hd
    by_cases hh : a = k
    · subst hh
      have h2 : b = v := by simpa [alLookup] using h
      subst h2
      exact List.mem_cons_self _ _
    · simp only [alLookup, if_neg hh] at h
      exact List.mem_cons_of_mem _ (ih h)

/-! Grouping lemmas for the display grouper. -/

theorem keys_addToGroups (gs : List (Int × List (Nat × String))) (k : Int)
    (p : Nat × String) :
    (addToGroups gs k p).map Prod.fst =
      if k ∈ gs.map Prod.fst then gs.map Prod.fst
      else gs.map Prod.fst ++ [k] := by
  induction gs with
  | nil => simp [addToGroups]
  | cons hd tl ih =>
    obtain ⟨k0, l0⟩ := hd
    by_cases h : k0 = k
    · subst h
      simp [addToGroups]
    · have hne : ¬(k = k0) := fun he => h he.symm
      rw [List.map_cons]
      by_cases hm : k ∈ tl.map Prod.fst
      · simp [addToGroups, h, ih, hm, hne]
      · simp [addToGroups, h, ih, hm, hne]

theorem keys_nodup_addToGroups (gs : List (Int × List (Nat × String))) (k : Int)
    (p : Nat × String) (h : (gs.map Prod.fst).Nodup) :
    ((addToGroups gs k p).map Prod.fst).Nodup := by
  rw [keys_addToGroups]
  by_cases hm : k ∈ gs.map Prod.fst
  · simpa [hm] using h
  · simp [hm, List.nodup_append, h]

theorem addToGroups_content (localNaive : String → Int)
    (gs : List (Int × List (Nat × String))) (k : Int) (p : Nat × String)
    (hg : ∀ q ∈ gs, ∀ x ∈ q.2, localNaive x.2 = q.1) (hp : localNaive p.2 = k) :
    ∀ q ∈ addToGroups gs k p, ∀ x ∈ q.2, localNaive x.2 = q.1 := by
  induction gs with
  | nil =>
    intro q hq x hx
    simp only [addToGroups, List.mem_singleton] at hq
    subst hq
    simp only [List.mem_singleton] at hx
    subst hx
    exact hp
  | cons hd tl ih =>
    obtain ⟨k0, l0⟩ := hd
    intro q hq x hx
    by_cases h : k0 = k
    · subst h
      simp only [addToGroups, if_pos rfl] at hq
      rcases List.mem_cons.mp hq with hq | hq
      · subst hq
        simp only [List.mem_append, List.mem_singleton] at hx
        rcases hx with hx | hx
        · exact hg (k0, l0) (List.mem_cons_self _ _) x hx
        · subst hx
          exact hp
      · exact hg q (List.mem_cons_of_mem _ hq) x hx
    · simp only [addToGroups, if_neg h] at hq
      rcases List.mem_cons.mp hq with hq | hq
      · subst hq
        exact hg (k0, l0) (List.mem_cons_self _ _) x hx
      · exact ih (fun r hr => hg r (List.mem_cons_of_mem _ hr)) q hq x hx

theorem addToGroups_preserve (gs : List (Int × List (Nat × String))) (k : Int)
    (p : Nat × String) (k' : Int) (x : Nat × String)
    (h : ∃ l, (k', l) ∈ gs ∧ x ∈ l) :
    ∃ l, (k', l) ∈ addToGroups gs k p ∧ x ∈ l := by
  induction gs with
  | nil =>
    obtain ⟨l, hl, _⟩ := h
    simp at hl
  | cons hd tl ih =>
    obtain ⟨k0, l0⟩ := hd
    obtain ⟨l, hl, hx⟩ := h
    by_cases hk : k0 = k
    · rcases List.mem_cons.mp hl with he | ht
      · rw [Prod.mk.injEq] at he
        obtain ⟨h1, h2⟩ := he
        subst h1
        subst h2
        exact ⟨l ++ [p], by simp only [addToGroups, if_pos hk]; exact List.mem_cons_self _ _,
          List.mem_append_left _ hx⟩
      · exact ⟨l, by simp only [addToGroups, if_pos hk]; exact List.mem_cons_of_mem _ ht, hx⟩
    · rcases List.mem_cons.mp hl with he | ht
      · exact ⟨l, by simp only [addToGroups, if_neg hk]; exact List.mem_cons.mpr (Or.inl he), hx⟩
      · obtain ⟨l2, hl2, hx2⟩ := ih ⟨l, ht, hx⟩
        exact ⟨l2, by simp only [addToGroups, if_neg hk]; exact List.mem_cons_of_mem _ hl2, hx2⟩

theorem addToGroups_mem_insert (gs : List (Int × List (Nat × String))) (k : Int)
    (p : Nat × String) : ∃ l, (k, l) ∈ addToGroups gs k p ∧ p ∈ l := by
  induction gs with
  | nil => exact ⟨[p], by simp [addToGroups], by simp⟩
  | cons hd tl ih =>
    obtain ⟨k0, l0⟩ := hd
    by_cases hk : k0 = k
    · subst hk
      exact ⟨l0 ++ [p], by simp [addToGroups], by simp⟩
    · obtain ⟨l, hl, hp⟩ := ih
      exact ⟨l, by simp only [addToGroups, if_neg hk]; exact List.mem_cons_of_mem _ hl, hp⟩

theorem groupUsersAux_content (localNaive : String → Int) (tzs : List (Nat × String))
    (gs : List (Int × List (Nat × String)))
    (hg : ∀ q ∈ gs, ∀ x ∈ q.2, localNaive x.2 = q.1) :
    ∀ q ∈ groupUsersAux localNaive tzs gs, ∀ x ∈ q.2, localNaive x.2 = q.1 := by
  induction tzs generalizing gs with
  | nil => simpa [groupUsersAux] using hg
  | cons p rest ih =>
    exact ih _ (addToGroups_content localNaive gs (localNaive p.2) p hg rfl)

theorem groupUsersAux_preserve (localNaive : String → Int) (tzs : List (Nat × String))
    (gs : List (Int × List (Nat × String))) (k' : Int) (x : Nat × String)
    (h : ∃ l, (k', l) ∈ gs ∧ x ∈ l) :
    ∃ l, (k', l) ∈ groupUsersAux localNaive tzs gs ∧ x ∈ l := by
  induction tzs generalizing gs with
  | nil => simpa [groupUsersAux] using h
  | cons p rest ih => exact ih _ (addToGroups_preserve gs (localNaive p.2) p k' x h)

theorem groupUsersAux_mem (localNaive : String → Int) (tzs : List (Nat × String))
    (gs : List (Int × List (Nat × String))) :
    ∀ p ∈ tzs, ∃ l, (localNaive p.2, l) ∈ groupUsersAux localNaive tzs gs ∧ p ∈ l := by
  induction tzs generalizing gs with
  | nil =>
    intro p hp
    simp at hp
  | cons q rest ih =>
    intro p hp
    rcases List.mem_cons.mp hp with he | hp'
    · subst he
      exact groupUsersAux_preserve localNaive rest _ (localNaive p.2) p
        (addToGroups_mem_insert gs (localNaive p.2) p)
    · exact ih _ p hp'

theorem groupUsersAux_keys_nodup (localNaive : String → Int)
    (tzs : List (Nat × String)) (gs : List (Int × List (Nat × String)))
    (h : (gs.map Prod.fst).Nodup) :
    ((groupUsersAux localNaive tzs gs).map Prod.fst).Nodup := by
  induction tzs generalizing gs with
  | nil => simpa [groupUsersAux] using h
  | cons p rest ih => exact ih _ (keys_nodup_addToGroups gs (localNaive p.2) p h)

theorem nodup_keys_pair_eq {α β : Type} {l : List (α × β)}
    (h : (l.map Prod.fst).Nodup) {a b : α × β} (ha : a ∈ l) (hb : b ∈ l)
    (he : a.1 = b.1) : a = b := by
  induction l with
  | nil => simp at ha
  | cons hd tl ih =>
    simp only [List.map_cons, List.nodup_cons] at h
    rcases List.mem_cons.mp ha with rfl | ha'
    · rcases List.mem_cons.mp hb with rfl | hb'
      · rfl
      · exact absurd (he ▸ List.mem_map_of_mem Prod.fst hb') h.1
    · rcases List.mem_cons.mp hb with rfl | hb'
      · exact absurd (he ▸ List.mem_map_of_mem Prod.fst ha') h.1
      · exact ih h.2 ha' hb'

/-! Concrete instances used by witnesses and counterexamples: a small timezone
database fragment, a local-time valuation, and a store document holding one
guild with one stale ("mars/phobos") and one valid ("utc") entry plus a
persisted time message record. -/

/-- A concrete timezone database fragment. -/
def demoValid : String → Bool := fun s =>
  (s == "utc") || (s == "america/new_york") || (s == "etc/gmt")

/-- A concrete local naive date-time valuation: utc and etc/gmt share the same
clock reading, america/new_york shows an earlier one. -/
def demoNaive : String → Int := fun s =>
  if s == "utc" then 100 else if s == "etc/gmt" then 100 else 0

/-- Guild data with a stale entry, a valid entry and a time message record. -/
def demoGd : GuildData :=
  { timezones := [(10, "mars/phobos"), (11, "utc")], time_message := some (5, 100) }

/-- A one-guild store document containing demoGd. -/
def demoDocStale : Doc := [(1, demoGd)]

/-- A three-member mapping, two of whom share a local clock reading. -/
def demoTzs : List (Nat × String) := [(10, "utc"), (11, "etc/gmt"), (12, "america/new_york")]

/-! Claim theorems. -/

/-- C1: for a valid timezone identifier z, saving it for (guild, user) and then
reading it back returns z (not unset), and a later save for the same pair
overwrites any prior value, the store ending exactly as if only the later save
had run. -/
theorem set_then_get_returns_timezone (validTz : String → Bool) (doc : Doc)
    (g u : Nat) (z zPrior : String) (hz : validTz z = true) (hne : z ≠ "") :
    get_timezone_user validTz (save_timezone doc g u z) g u =
      (save_timezone doc g u z, some z) ∧
    save_timezone (save_timezone doc g u zPrior) g u z = save_timezone doc g u z := by
  constructor
  · cases hLook : alLookup doc g with
    | none =>
      simp [save_timezone, get_timezone_user, hLook, alLookup_alInsert_self, hne, hz]
    | some gd =>
      simp [save_timezone, get_timezone_user, hLook, alLookup_alInsert_self, hne, hz]
  · cases hLook : alLookup doc g with
    | none =>
      simp [save_timezone, hLook, alLookup_alInsert_self, alInsert_alInsert_same]
    | some gd =>
      simp [save_timezone, hLook, alLookup_alInsert_self, alInsert_alInsert_same]

/-- C1 witness: the round trip at a concrete store. -/
theorem set_then_get_returns_timezone_witness :
    demoValid "utc" = true ∧ "utc" ≠ "" ∧
    get_timezone_user demoValid (save_timezone demoDocStale 1 11 "utc") 1 11 =
      (save_timezone demoDocStale 1 11 "utc", some "utc") :=
  ⟨by decide, by decide,
    (set_then_get_returns_timezone demoValid demoDocStale 1 11 "utc" "etc/gmt"
      (by decide) (by decide)).1⟩

/-- C2 counterexample: the store operation save_timezone takes no validity
check at all and happily persists the unknown identifier mars/phobos, so the
claim that setTimezone itself validates and writes no record for an unknown
identifier is false. -/
theorem save_timezone_writes_unknown_identifier :
    userTzLookup (save_timezone [] 1 2 "mars/phobos") 1 2 = some "mars/phobos" ∧
    demoValid "mars/phobos" = false := by
  constructor
  · rfl
  · rfl

/-- C2 (amended): validation lives in the command handler timezone_set, not in
save_timezone: when the casefolded and stripped identifier is unknown to the
timezone database, the handler replies with the invalid-timezone message and
never calls save_timezone, so the store is unchanged and no success reply is
produced. -/
theorem timezone_set_rejects_unknown_without_write (validTz : String → Bool)
    (normalize : String → String) (doc : Doc) (g author : Nat) (tzInput : String)
    (target : Option Nat) (authorCanManage : Bool)
    (h : validTz (normalize tzInput) = false) :
    (timezone_set validTz normalize doc g author tzInput target authorCanManage).doc =
      doc ∧
    (¬(target.isSome = true ∧ ¬authorCanManage = true ∧ author ≠ target.getD author) →
      (timezone_set validTz normalize doc g author tzInput target
          authorCanManage).reply = SetReply.invalidTz) := by
  simp only [timezone_set]
  constructor
  · split
    · rfl
    · simp [h]
  · intro hperm
    simp only [Bool.not_eq_true, ne_eq] at hperm
    simp [hperm, h]

/-- C2 witness: the command rejects mars/phobos with the invalid-timezone
reply, leaving the store as it was. -/
theorem timezone_set_rejects_unknown_without_write_witness :
    demoValid (id "mars/phobos") = false ∧
    ¬((none : Option Nat).isSome = true ∧ ¬true = true ∧
        10 ≠ (none : Option Nat).getD 10) ∧
    (timezone_set demoValid id demoDocStale 1 10 "mars/phobos" none true).doc =
      demoDocStale ∧
    (timezone_set demoValid id demoDocStale 1 10 "mars/phobos" none true).reply =
      SetReply.invalidTz :=
  ⟨by decide, by decide,
    (timezone_set_rejects_unknown_without_write demoValid id demoDocStale 1 10
      "mars/phobos" none true (by decide)).1,
    (timezone_set_rejects_unknown_without_write demoValid id demoDocStale 1 10
      "mars/phobos" none true (by decide)).2 (by decide)⟩

/-- C3: get_timezone with no user id deletes a stale entry from the dict it is
iterating, so the next iterator step raises RuntimeError (modelled as the
error value): on a guild holding the stale mars/phobos beside the valid utc,
the call persists the healed document but raises instead of returning the
mapping, contradicting the never-crashes claim. -/
theorem get_all_timezones_raises_on_stale_entry :
    getTimezoneAll demoValid demoDocStale 1 =
      ([(1, { timezones := [(11, "utc")], time_message := some (5, 100) })],
        Except.error ()) := by
  rfl

/-- C4: on a non-empty mapping the display grouper puts every member into the
group keyed by its local naive date-time, every group member's local naive
date-time equals the group key, group keys are pairwise distinct, two members
sit in the same group exactly when their local naive date-times coincide
(zone names notwithstanding), and the groups are ordered ascending by
(date-time key, group size). -/
theorem display_grouper_partition_and_order (localNaive : String → Int)
    (tzs : List (Nat × String)) (hne : tzs ≠ []) :
    (∀ p ∈ tzs, ∃ l, (localNaive p.2, l) ∈ displayGroups localNaive tzs ∧ p ∈ l) ∧
    (∀ q ∈ displayGroups localNaive tzs, ∀ x ∈ q.2, localNaive x.2 = q.1) ∧
    ((displayGroups localNaive tzs).map Prod.fst).Nodup ∧
    (∀ q ∈ displayGroups localNaive tzs, ∀ r ∈ displayGroups localNaive tzs,
      ∀ x ∈ q.2, ∀ y ∈ r.2, (localNaive x.2 = localNaive y.2 ↔ q = r)) ∧
    List.Pairwise groupLe (displayGroups localNaive tzs) := by
  have hperm : List.Perm (displayGroups localNaive tzs) (groupUsers localNaive tzs) :=
    List.perm_insertionSort groupLe (groupUsers localNaive tzs)
  have hcontent : ∀ q ∈ displayGroups localNaive tzs, ∀ x ∈ q.2, localNaive x.2 = q.1 :=
    fun q hq => groupUsersAux_content localNaive tzs [] (by simp) q (hperm.mem_iff.mp hq)
  have hnodup : ((displayGroups localNaive tzs).map Prod.fst).Nodup := by
    refine ((hperm.map Prod.fst).nodup_iff).mpr ?_
    exact groupUsersAux_keys_nodup localNaive tzs [] (by simp)
  refine ⟨?_, hcontent, hnodup, ?_, ?_⟩
  · intro p hp
    obtain ⟨l, hl, hpl⟩ := groupUsersAux_mem localNaive tzs [] p hp
    exact ⟨l, hperm.mem_iff.mpr hl, hpl⟩
  · intro q hq r hr x hx y hy
    constructor
    · intro he
      have h1 : localNaive x.2 = q.1 := hcontent q hq x hx
      have h2 : localNaive y.2 = r.1 := hcontent r hr y hy
      exact nodup_keys_pair_eq hnodup hq hr (h1 ▸ h2 ▸ he)
    · intro he
      subst he
      rw [hcontent q hq x hx, hcontent q hq y hy]
  · exact List.sorted_insertionSort groupLe (groupUsers localNaive tzs)

/-- C4 witness: the three-member demo mapping, where utc and etc/gmt share a
clock reading and form one group. -/
theorem display_grouper_partition_and_order_witness :
    demoTzs ≠ [] ∧
    ((displayGroups demoNaive demoTzs).map Prod.fst).Nodup ∧
    List.Pairwise groupLe (displayGroups demoNaive demoTzs) :=
  ⟨by decide,
    (display_grouper_partition_and_order demoNaive demoTzs (by decide)).2.2.1,
    (display_grouper_partition_and_order demoNaive demoTzs (by decide)).2.2.2.2⟩

/-- C5 counterexample: the self-healing read-modify-write of get_timezone is
not inside a single critical section — its trace has the file read, then a
lock release, then the dependent file write — and concretely a save_timezone
that runs between the two critical sections is clobbered: the healing write
stores the document derived from the earlier snapshot, losing the entry the
interleaved save had written. -/
theorem selfheal_write_outside_read_critical_section :
    readRelWrite (get_timezone_user_trace demoValid demoDocStale 1 10) = true ∧
    userTzLookup (save_timezone demoDocStale 1 20 "utc") 1 20 = some "utc" ∧
    userTzLookup (eraseUserTz demoDocStale 1 10) 1 20 = none := by
  refine ⟨rfl, rfl, rfl⟩

/-- C5 (amended): the writer operations save_timezone, remove_timezone,
save_time_message and remove_time_message each hold the lock across their
whole read-modify-write; but the self-healing removal of get_timezone — for a
single user as well as for the whole guild — releases the lock after the read
and re-acquires it for the dependent write, so that write lands in a separate
critical section. -/
theorem lock_discipline_by_operation (validTz : String → Bool) (doc : Doc)
    (g u : Nat) (gd : GuildData) (z : String) :
    readRelWrite save_timezone_trace = false ∧
    (∀ b, readRelWrite (remove_timezone_trace b) = false) ∧
    readRelWrite save_time_message_trace = false ∧
    (∀ b, readRelWrite (remove_time_message_trace b) = false) ∧
    (alLookup doc g = some gd → alLookup gd.timezones u = some z → z ≠ "" →
      validTz z = false →
      readRelWrite (get_timezone_user_trace validTz doc g u) = true) ∧
    (alLookup doc g = some gd → gd.timezones.any (fun p => !validTz p.2) = true →
      readRelWrite (getTimezoneAll_trace validTz doc g) = true) := by
  refine ⟨by decide, by decide, by decide, by decide, ?_, ?_⟩
  · intro h1 h2 h3 h4
    simp [get_timezone_user_trace, h1, h2, h3, h4, readRelWrite, relThenWrite,
      containsWrite]
  · intro h1 h2
    simp [getTimezoneAll_trace, h1, h2, readRelWrite, relThenWrite, containsWrite]

/-- C5 witness: the writer trace passes and the self-healing trace fails the
single-critical-section check on the concrete stale document. -/
theorem lock_discipline_by_operation_witness :
    readRelWrite save_timezone_trace = false ∧
    readRelWrite (get_timezone_user_trace demoValid demoDocStale 1 10) = true :=
  ⟨(lock_discipline_by_operation demoValid demoDocStale 1 10 demoGd "mars/phobos").1,
    (lock_discipline_by_operation demoValid demoDocStale 1 10 demoGd
      "mars/phobos").2.2.2.2.1 rfl rfl (by decide) rfl⟩

/-- C6 counterexample: a tick on a cached guild that resolves and whose channel
grants send permission, but whose stored timezones hold a stale entry, edits
nothing — the RuntimeError raised while recomputing the display is swallowed —
so the claim that a resolvable, permitted community always gets its message
edited in place is false. -/
theorem tick_no_edit_despite_resolvable_and_permitted :
    (tick (fun _ => true) (fun _ => true) demoValid demoNaive
        { cache := [(1, 100)], doc := demoDocStale }).2 = [] ∧
    (tick (fun _ => true) (fun _ => true) demoValid demoNaive
        { cache := [(1, 100)], doc := demoDocStale }).1.cache = [(1, 100)] := by
  refine ⟨rfl, rfl⟩

/-- C6 (amended): per community in the tick, an unresolvable guild has its
cache entry and persisted record removed; a resolvable guild without send
permission is skipped with nothing evicted; and a resolvable, permitted guild
has its message edited with the recomputed display provided the recompute
returns instead of raising (it raises when a stale timezone entry is
self-healed; the failure is caught and nothing is edited or evicted). -/
theorem tick_step_branches (resolveGuild canSend : Nat → Bool)
    (validTz : String → Bool) (localNaive : String → Int) (g : Nat)
    (st : TickState) (edits : List (Nat × Nat × TMContent)) :
    (resolveGuild g = false →
      tickStep resolveGuild canSend validTz localNaive g (st, edits) =
        (remove_time_message st g, edits)) ∧
    (resolveGuild g = true → canSend g = false →
      tickStep resolveGuild canSend validTz localNaive g (st, edits) = (st, edits)) ∧
    (resolveGuild g = true → canSend g = true →
      ∀ msg, alLookup st.cache g = some msg →
        ∀ doc' content,
          create_time_message_content validTz localNaive st.doc g =
            (doc', Except.ok content) →
          tickStep resolveGuild canSend validTz localNaive g (st, edits) =
            ({ st with doc := doc' }, edits ++ [(g, msg, content)])) := by
  refine ⟨?_, ?_, ?_⟩
  · intro h
    simp [tickStep, h]
  · intro h1 h2
    cases hL : alLookup st.cache g with
    | none => simp [tickStep, h1, h2, hL]
    | some msg => simp [tickStep, h1, h2, hL]
  · intro h1 h2 msg hL doc' content hC
    simp [tickStep, h1, h2, hL, hC]

/-- C6 witness: an unresolvable guild is evicted from cache and store. -/
theorem tick_step_branches_witness :
    (fun _ : Nat => false) 1 = false ∧
    tickStep (fun _ => false) (fun _ => true) demoValid demoNaive 1
        ({ cache := [(1, 100)], doc := demoDocStale }, []) =
      (remove_time_message { cache := [(1, 100)], doc := demoDocStale } 1, []) :=
  ⟨rfl,
    (tick_step_branches (fun _ => false) (fun _ => true) demoValid demoNaive 1
      { cache := [(1, 100)], doc := demoDocStale } []).1 rfl⟩

/-- C7: removing a timezone then reading it back yields unset; remove is
idempotent on the store; and removing an absent record is a no-op raising no
error.  The no-duplicate-keys hypothesis is the dict invariant every Python
store document satisfies. -/
theorem remove_then_get_unset_and_idempotent (validTz : String → Bool)
    (doc : Doc) (g u : Nat)
    (hwf : ∀ p ∈ doc, ((p.2).timezones.map Prod.fst).Nodup) :
    get_timezone_user validTz (remove_timezone doc g u) g u =
      (remove_timezone doc g u, none) ∧
    remove_timezone (remove_timezone doc g u) g u = remove_timezone doc g u ∧
    (userTzLookup doc g u = none → remove_timezone doc g u = doc) := by
  cases hLook : alLookup doc g with
  | none =>
    refine ⟨?_, ?_, fun _ => ?_⟩
    · simp [remove_timezone, get_timezone_user, hLook]
    · simp [remove_timezone, hLook]
    · simp [remove_timezone, hLook]
  | some gd =>
    cases hU : alLookup gd.timezones u with
    | none =>
      refine ⟨?_, ?_, fun _ => ?_⟩
      · simp [remove_timezone, get_timezone_user, hLook, hU]
      · simp [remove_timezone, hLook, hU]
      · simp [remove_timezone, hLook, hU]
    | some z =>
      have hnd : (gd.timezones.map Prod.fst).Nodup := hwf (g, gd) (alLookup_mem hLook)
      have hdoc2 : remove_timezone doc g u =
          alInsert doc g { gd with timezones := alErase gd.timezones u } := by
        simp [remove_timezone, hLook, hU]
      have hgone : alLookup (alErase gd.timezones u) u = none :=
        alLookup_alErase_self gd.timezones u hnd
      refine ⟨?_, ?_, fun habs => ?_⟩
      · rw [hdoc2]
        simp [get_timezone_user, alLookup_alInsert_self, hgone]
      · rw [hdoc2]
        simp [remove_timezone, alLookup_alInsert_self, hgone]
      · simp [userTzLookup, hLook, hU] at habs

/-- C7 witness: remove then get on the concrete stale document. -/
theorem remove_then_get_unset_and_idempotent_witness :
    (∀ p ∈ demoDocStale, ((p.2).timezones.map Prod.fst).Nodup) ∧
    get_timezone_user demoValid (remove_timezone demoDocStale 1 10) 1 10 =
      (remove_timezone demoDocStale 1 10, none) :=
  ⟨by decide,
    (remove_then_get_unset_and_idempotent demoValid demoDocStale 1 10 (by decide)).1⟩

/-- C8: the display grouper yields the no-one-has-set sentinel exactly for the
empty mapping, and getAllTimezones on a guild with no records returns the
empty mapping without error. -/
theorem empty_mapping_sentinel_and_empty_get_all (validTz : String → Bool)
    (localNaive : String → Int) (doc : Doc) (g : Nat)
    (tzs : List (Nat × String)) (habsent : alLookup doc g = none) :
    (timeMessageContent localNaive tzs = TMContent.sentinel ↔ tzs = []) ∧
    getTimezoneAll validTz doc g = (doc, Except.ok []) := by
  constructor
  · cases tzs with
    | nil => simp [timeMessageContent]
    | cons p rest => simp [timeMessageContent]
  · simp [getTimezoneAll, habsent]

/-- C8 witness: the empty store and the empty mapping. -/
theorem empty_mapping_sentinel_and_empty_get_all_witness :
    alLookup ([] : Doc) 1 = none ∧
    ((timeMessageContent demoNaive [] = TMContent.sentinel ↔
        ([] : List (Nat × String)) = []) ∧
      getTimezoneAll demoValid [] 1 = ([], Except.ok [])) :=
  ⟨rfl, empty_mapping_sentinel_and_empty_get_all demoValid demoNaive [] 1 [] rfl⟩

/-- C9: save_timezone changes only the (guild, user) entry it writes: every
other user of that guild, every other guild entry and the guild's persisted
time message record are unchanged. -/
theorem save_timezone_frame (doc : Doc) (g u : Nat) (z : String) :
    (∀ u', u' ≠ u →
      userTzLookup (save_timezone doc g u z) g u' = userTzLookup doc g u') ∧
    (∀ g', g' ≠ g → alLookup (save_timezone doc g u z) g' = alLookup doc g') ∧
    timeMessageOf (save_timezone doc g u z) g = timeMessageOf doc g := by
  cases hLook : alLookup doc g with
  | none =>
    refine ⟨fun u' hu => ?_, fun g' hg => ?_, ?_⟩
    · simp [save_timezone, userTzLookup, hLook, alLookup_alInsert_self,
        alLookup_alInsert_ne _ _ _ _ hu, alLookup, Ne.symm hu]
    · simp [save_timezone, hLook, alLookup_alInsert_ne _ _ _ _ hg]
    · simp [save_timezone, timeMessageOf, hLook, alLookup_alInsert_self]
  | some gd =>
    refine ⟨fun u' hu => ?_, fun g' hg => ?_, ?_⟩
    · simp [save_timezone, userTzLookup, hLook, alLookup_alInsert_self,
        alLookup_alInsert_ne _ _ _ _ hu]
    · simp [save_timezone, hLook, alLookup_alInsert_ne _ _ _ _ hg]
    · simp [save_timezone, timeMessageOf, hLook, alLookup_alInsert_self]

/-- C9 witness: writing user 10 leaves user 11, guild 2 and the persisted time
message of guild 1 untouched. -/
theorem save_timezone_frame_witness :
    (11 ≠ 10) ∧ (2 ≠ 1) ∧
    userTzLookup (save_timezone demoDocStale 1 10 "utc") 1 11 =
      userTzLookup demoDocStale 1 11 ∧
    alLookup (save_timezone demoDocStale 1 10 "utc") 2 = alLookup demoDocStale 2 ∧
    timeMessageOf (save_timezone demoDocStale 1 10 "utc") 1 =
      timeMessageOf demoDocStale 1 :=
  ⟨by decide, by decide,
    (save_timezone_frame demoDocStale 1 10 "utc").1 11 (by decide),
    (save_timezone_frame demoDocStale 1 10 "utc").2.1 2 (by decide),
    (save_timezone_frame demoDocStale 1 10 "utc").2.2⟩

/-- C10: time_message_clear decides existence solely from the in-memory cache:
with no cache entry for the guild it replies that no persistent time message
exists and returns leaving the state — including any persisted record still in
the store — untouched. -/
theorem clear_is_noop_when_not_cached (st : TickState) (g : Nat)
    (h : alLookup st.cache g = none) :
    time_message_clear st g = (st, ClearReply.noExists) := by
  simp [time_message_clear, h]

/-- C10 witness: guild 1 has a persisted record in the store but no cache
entry; clear replies noExists and the document keeps the record. -/
theorem clear_is_noop_when_not_cached_witness :
    alLookup (TickState.mk [] demoDocStale).cache 1 = none ∧
    time_message_clear (TickState.mk [] demoDocStale) 1 =
      (TickState.mk [] demoDocStale, ClearReply.noExists) ∧
    timeMessageOf demoDocStale 1 = some (5, 100) :=
  ⟨rfl, clear_is_noop_when_not_cached (TickState.mk [] demoDocStale) 1 rfl, rfl⟩

end TimezoneBot
